import Mathlib

/-!
Verification of the telemetry alerting engine in `src/middlewares/mqttHandler.js`.

The development shallowly embeds the handler: JavaScript values appearing in
payloads become the inductive type `JsValue`; the mutable handler object becomes
the record `MQTTHandlerState` with explicit state passing; timestamps
(`Date.now()`) are integers (milliseconds); numbers are modelled as rationals
(the code performs no arithmetic on readings, only comparisons, so the carrier
is faithful for every property below).  Asynchronous collaborators (the Mongo
models, the mail transport) are passed in as explicit arguments: a fetch result
is an `Except`/`Option` value and mail delivery outcomes are an oracle
`Job -> Bool`, matching the points where the source awaits a promise.

Modelled subsets of JavaScript builtins (documented where defined):
`parseFloat` and `ToNumber` on strings cover optional sign, integer digits and
a decimal fraction (no exponent, hex, `Infinity`, or leading whitespace);
JSON arrays are not modelled (no claim involves them).
-/

/-- Constant `MAX_QUEUE_SIZE` from mqttHandler.js line 12. -/
def MAX_QUEUE_SIZE : Nat := 100

/-- Constant `MAX_MAIL_RETRIES` from mqttHandler.js line 13. -/
def MAX_MAIL_RETRIES : Nat := 3

/-- Constant `MAIL_RETRY_DELAY` (milliseconds) from mqttHandler.js line 14. -/
def MAIL_RETRY_DELAY : Int := 1000

/-- Constant `THRESHOLD_COOLDOWN_PERIOD` (milliseconds) from mqttHandler.js line 15. -/
def THRESHOLD_COOLDOWN_PERIOD : Int := 30000

/-- A JavaScript value as it can appear after `JSON.parse` of a payload
(JSON arrays are not modelled; no claim involves them). `null` doubles as
the "unparseable" result the handler returns and tests with `value === null`. -/
inductive JsValue where
  | null : JsValue
  | bool (b : Bool) : JsValue
  | num (q : ℚ) : JsValue
  | str (s : String) : JsValue
  | obj (fields : List (String × JsValue)) : JsValue

/-- JavaScript property access `v.name`: `none` models `undefined`.
Only objects expose the data properties relevant here. -/
def jsGet : JsValue → String → Option JsValue
  | JsValue.obj fields, name => lookupField fields name
  | _, _ => none
where lookupField : List (String × JsValue) → String → Option JsValue
  | [], _ => none
  | (k, v) :: rest, name => if k = name then some v else lookupField rest name

/-- JavaScript truthiness of a parsed-JSON value (no NaN can occur in
parsed JSON, so a number is truthy exactly when nonzero). -/
def jsTruthy : JsValue → Bool
  | JsValue.null => false
  | JsValue.bool b => b
  | JsValue.num q => q ≠ 0
  | JsValue.str s => s ≠ ""
  | JsValue.obj _ => true

/-- Numeric value of a decimal digit character. -/
def charDigitVal (c : Char) : Nat := c.toNat - 48

/-- Value of a big-endian list of decimal digit characters. -/
def digitsVal (ds : List Char) : Nat :=
  ds.foldl (fun a c => 10 * a + charDigitVal c) 0

/-- Optional leading sign, as in both `parseFloat` and string `ToNumber`. -/
def readSign : List Char → ℚ × List Char
  | [] => (1, [])
  | c :: r => if c = '-' then (-1, r) else if c = '+' then (1, r) else (1, c :: r)

/-- Model of the JavaScript builtin `parseFloat` on a character list: skip an
optional sign, read integer digits, optionally a dot and fraction digits, and
ignore any remaining characters (prefix semantics).  Returns `none` for NaN.
Modelled subset: no exponent part, no hex, no `Infinity`, no leading
whitespace (none of which occur in the properties below). -/
def parseFloatChars (cs : List Char) : Option ℚ :=
  let sc := readSign cs
  let intDs := sc.2.takeWhile Char.isDigit
  let rest := sc.2.dropWhile Char.isDigit
  let fracDs :=
    match rest with
    | '.' :: r => r.takeWhile Char.isDigit
    | _ => ([] : List Char)
  if intDs = [] ∧ fracDs = [] then none
  else some (sc.1 * ((digitsVal intDs : ℚ) + (digitsVal fracDs : ℚ) / (10 : ℚ) ^ fracDs.length))

/-- `parseFloat` applied to a string. -/
def parseFloatStr (s : String) : Option ℚ := parseFloatChars s.data

/-- Model of the JavaScript `ToNumber` coercion of a string, used by the
relational operators: the whole (unconsumed-free) string must be numeric;
the empty string converts to `0`.  Same modelled subset as `parseFloatChars`. -/
def toNumberChars (cs : List Char) : Option ℚ :=
  if cs = [] then some 0
  else
    let sc := readSign cs
    let intDs := sc.2.takeWhile Char.isDigit
    let rest := sc.2.dropWhile Char.isDigit
    match rest with
    | [] => if intDs = [] then none else some (sc.1 * (digitsVal intDs : ℚ))
    | '.' :: r =>
      let fracDs := r.takeWhile Char.isDigit
      if r.dropWhile Char.isDigit ≠ [] then none
      else if intDs = [] ∧ fracDs = [] then none
      else some (sc.1 * ((digitsVal intDs : ℚ) + (digitsVal fracDs : ℚ) / (10 : ℚ) ^ fracDs.length))
    | _ => none

/-- `parseFloat` applied to an arbitrary value (the argument is first coerced
to a string: numbers print and re-parse to themselves, booleans, `null` and
plain objects stringify to non-numeric text). -/
def parseFloatJs : JsValue → Option ℚ
  | JsValue.num q => some q
  | JsValue.str s => parseFloatStr s
  | _ => none

/-- `ToNumber` of a value, as used by `>=` and `<` with a number operand:
`null` converts to `0`, booleans to `0`/`1`, objects to NaN. -/
def toNumberJs : JsValue → Option ℚ
  | JsValue.null => some 0
  | JsValue.bool b => some (if b then 1 else 0)
  | JsValue.num q => some q
  | JsValue.str s => toNumberChars s.data
  | JsValue.obj _ => none

/-- The JavaScript comparison `liveValue >= value` where `value` is a number;
any NaN operand makes the comparison false. -/
def jsGE (v : JsValue) (bound : ℚ) : Bool :=
  match toNumberJs v with
  | some a => bound ≤ a
  | none => false

/-- The JavaScript comparison `liveValue < resetValue` where `resetValue` is a
number; any NaN operand makes the comparison false. -/
def jsLT (v : JsValue) (bound : ℚ) : Bool :=
  match toNumberJs v with
  | some a => a < bound
  | none => false

/-- `MQTTHandler.parsePayload` (mqttHandler.js lines 177-206).  The outcome of
`JSON.parse(payloadStr)` is passed in explicitly (`none` models a thrown
`SyntaxError`); `payloadStr` is the raw payload text, consulted only on that
failure path.  The JavaScript `jsonParsed && typeof jsonParsed === "object"`
guard holds exactly for (non-null) objects. -/
def parsePayload (jsonResult : Option JsValue) (payloadStr : String) : JsValue :=
  match jsonResult with
  | some jsonParsed =>
    match jsonParsed with
    | JsValue.obj fields =>
      match jsGet (JsValue.obj fields) "message" with
      | some msg =>
        if jsTruthy msg ∧ (jsGet msg "message").isSome then
          (jsGet msg "message").getD JsValue.null
        else
          match parseFloatJs msg with
          | some n => JsValue.num n
          | none => msg
      | none =>
        match parseFloatJs (JsValue.obj fields) with
        | some n => JsValue.num n
        | none => JsValue.null
    | _ =>
      match parseFloatJs jsonParsed with
      | some n => JsValue.num n
      | none => JsValue.null
  | none =>
    match parseFloatStr payloadStr with
    | some n => JsValue.num n
    | none => JsValue.null

/-- One threshold definition from the topic configuration document:
`{ color, value, resetValue }` (severity label, trigger value, reset value). -/
structure ThresholdDef where
  color : String
  value : ℚ
  resetValue : ℚ
deriving DecidableEq

/-- Per-(topic, severity) alert state, default `{triggered:false, lastAlertTime:0}`
(mqttHandler.js lines 333-336). -/
structure SevState where
  triggered : Bool
  lastAlertTime : Int
deriving DecidableEq

/-- The per-topic state map `topicState`.  The source keys a JS `Map` by the
string `color + "-" + value`; the pair `(color, value)` models that key (the
concatenation is injective on the color/number pairs occurring in practice). -/
def TSMap : Type := List ((String × ℚ) × SevState)

instance : DecidableEq TSMap := inferInstanceAs (DecidableEq (List ((String × ℚ) × SevState)))

/-- `Map.get` on the topic state. -/
def tsLookup : TSMap → String × ℚ → Option SevState
  | [], _ => none
  | (k, v) :: rest, key => if k = key then some v else tsLookup rest key

/-- `Map.set` on the topic state: overwrite in place, else append
(JS `Map` preserves first-insertion order on overwrite). -/
def tsInsert : TSMap → String × ℚ → SevState → TSMap
  | [], key, v => [(key, v)]
  | (k, v0) :: rest, key, v => if k = key then (key, v) :: rest else (k, v0) :: tsInsert rest key v

/-- The comparator ordering of `[...thresholds].sort((a, b) => b.value - a.value)`:
`a` precedes `b` when `a.value >= b.value` (descending, ties stable). -/
def thDesc (a b : ThresholdDef) : Prop := b.value ≤ a.value

instance : DecidableRel thDesc := fun a b => inferInstanceAs (Decidable (b.value ≤ a.value))

instance : IsTotal ThresholdDef thDesc := ⟨fun a b => le_total b.value a.value⟩

instance : IsTrans ThresholdDef thDesc := ⟨fun _ _ _ h1 h2 => le_trans h2 h1⟩

/-- `[...thresholds].sort((a, b) => b.value - a.value)` (mqttHandler.js line 326):
a stable descending sort by trigger value, modelled by insertion sort with the
non-strict comparator (stable sorts agree, so this matches the JS engine). -/
def sortThresholds (ts : List ThresholdDef) : List ThresholdDef :=
  List.insertionSort thDesc ts

/-- The informational content of one enqueued alert: the resolved recipients
plus the data `prepareThresholdAlert` renders into subject and body
(mqttHandler.js lines 358-364 and 403-423; the rendered strings themselves are
presentation and are not modelled). -/
structure Alert where
  recipients : List String
  color : String
  value : ℚ
  liveValue : JsValue

/-- The body of the `for (const { color, value, resetValue } of sortedThresholds)`
loop of `checkThresholds` (mqttHandler.js lines 331-379), with `recipients` the
value `getRecipients` resolves to during the pass.  Returns the updated
`topicState` and the alerts added to the email queue, in order.  `continue`
recurses with the state unchanged, `break` returns with the tail unprocessed. -/
def checkStep (recipients : List String) (currentTime : Int) (liveValue : JsValue)
    (topicState : TSMap) (higherThresholdTriggered : Bool) :
    List ThresholdDef → TSMap × List Alert
  | [] => (topicState, [])
  | t :: rest =>
    let stateKey := (t.color, t.value)
    let currentState := (tsLookup topicState stateKey).getD ⟨false, 0⟩
    if jsGE liveValue t.value then
      let cooldownPassed := THRESHOLD_COOLDOWN_PERIOD ≤ currentTime - currentState.lastAlertTime
      if ¬ currentState.triggered ∨ cooldownPassed then
        if higherThresholdTriggered then
          checkStep recipients currentTime liveValue topicState higherThresholdTriggered rest
        else
          let topicState1 := tsInsert topicState stateKey ⟨true, currentTime⟩
          if 0 < recipients.length then
            let alert : Alert := ⟨recipients, t.color, t.value, liveValue⟩
            if t.color = "red" then (topicState1, [alert])
            else
              let r := checkStep recipients currentTime liveValue topicState1 true rest
              (r.1, alert :: r.2)
          else
            checkStep recipients currentTime liveValue topicState1 higherThresholdTriggered rest
      else
        checkStep recipients currentTime liveValue topicState higherThresholdTriggered rest
    else if jsLT liveValue t.resetValue then
      checkStep recipients currentTime liveValue (tsInsert topicState stateKey ⟨false, 0⟩)
        higherThresholdTriggered rest
    else
      checkStep recipients currentTime liveValue topicState higherThresholdTriggered rest

/-- `MQTTHandler.checkThresholds` (mqttHandler.js lines 322-382) restricted to
one topic: `thresholds` is what `getThresholds` resolved to (`none` models
`null`), `topicState` replaces `this.thresholdStates.get(topic) || new Map()`,
and the returned map replaces the final `this.thresholdStates.set`.  The guard
`!thresholds?.length` returns early for a null or empty list. -/
def checkTopicState (thresholds : Option (List ThresholdDef)) (recipients : List String)
    (currentTime : Int) (liveValue : JsValue) (topicState : TSMap) : TSMap × List Alert :=
  match thresholds with
  | none => (topicState, [])
  | some ths =>
    if ths.length = 0 then (topicState, [])
    else checkStep recipients currentTime liveValue topicState false (sortThresholds ths)

/-- Evaluate a sequence of `(time, reading)` pairs against a fixed threshold
configuration, threading the per-topic state and concatenating alerts: the
effect of successive `handleMessage` deliveries on one topic's threshold state. -/
def runReadings (thresholds : Option (List ThresholdDef)) (recipients : List String) :
    List (Int × JsValue) → TSMap → TSMap × List Alert
  | [], topicState => (topicState, [])
  | (currentTime, liveValue) :: rest, topicState =>
    let r1 := checkTopicState thresholds recipients currentTime liveValue topicState
    let r2 := runReadings thresholds recipients rest r1.1
    (r2.1, r1.2 ++ r2.2)

/-- One entry of a topic's pending batch: `{ value, timestamp: Date.now() }`
(mqttHandler.js line 246). -/
structure QMsg where
  value : JsValue
  timestamp : Int

/-- The live-cache entry `{ message: { message: value }, timestamp }`
(mqttHandler.js lines 234-237); the double wrapping is presentation and the
stored reading is kept directly. -/
structure LiveEntry where
  value : JsValue
  timestamp : Int

/-- The mutable per-topic state of the `MQTTHandler` instance: the pending
batches `messageQueue`, the live cache `latestMessages`, the subscription set
`subscribedTopics` and the per-topic threshold states `thresholdStates`.
Maps and sets become functions from topics; `none` models an absent key. -/
structure MQTTHandlerState where
  subscribedTopics : String → Bool
  messageQueue : String → Option (List QMsg)
  latestMessages : String → Option LiveEntry
  thresholdStates : String → Option TSMap

/-- `MQTTHandler.updateLatestMessage` (mqttHandler.js lines 233-238). -/
def updateLatestMessage (s : MQTTHandlerState) (topic : String) (value : JsValue)
    (now : Int) : MQTTHandlerState :=
  { s with latestMessages := fun t =>
      if t = topic then some ⟨value, now⟩ else s.latestMessages t }

/-- The list-level effect of `MQTTHandler.queueMessage` on one topic's batch:
push, then `splice(0, length - MAX_QUEUE_SIZE)` once the bound is exceeded
(mqttHandler.js lines 245-250). -/
def enqueueList (messages : List QMsg) (m : QMsg) : List QMsg :=
  let pushed := messages ++ [m]
  if MAX_QUEUE_SIZE < pushed.length then pushed.drop (pushed.length - MAX_QUEUE_SIZE)
  else pushed

/-- `MQTTHandler.queueMessage` (mqttHandler.js lines 240-251): create the
topic's batch when absent, append the reading, and drop the oldest entries
beyond `MAX_QUEUE_SIZE`. -/
def queueMessage (s : MQTTHandlerState) (topic : String) (value : JsValue)
    (now : Int) : MQTTHandlerState :=
  { s with messageQueue := fun t =>
      if t = topic then some (enqueueList ((s.messageQueue topic).getD []) ⟨value, now⟩)
      else s.messageQueue t }

/-- `MQTTHandler.checkThresholds` at the handler-state level (mqttHandler.js
lines 322-382): read the topic's state map (empty when absent), run the
severity loop, and store the updated map; the early `!thresholds?.length`
return leaves `thresholdStates` untouched. -/
def checkThresholds (s : MQTTHandlerState) (topic : String)
    (thresholds : Option (List ThresholdDef)) (recipients : List String)
    (currentTime : Int) (liveValue : JsValue) : MQTTHandlerState × List Alert :=
  match thresholds with
  | none => (s, [])
  | some ths =>
    if ths.length = 0 then (s, [])
    else
      let r := checkStep recipients currentTime liveValue
        ((s.thresholdStates topic).getD []) false (sortThresholds ths)
      ({ s with thresholdStates := fun t =>
          if t = topic then some r.1 else s.thresholdStates t }, r.2)

/-- The strict comparison `value === null` of mqttHandler.js line 217. -/
def isNullJs : JsValue → Bool
  | JsValue.null => true
  | _ => false

/-- `MQTTHandler.handleMessage` (mqttHandler.js lines 208-231): parse the
payload, drop the message when the parse result is `null`, otherwise update
the live cache, enqueue the reading and evaluate thresholds.  The JSON parse
outcome, the resolved threshold list and the resolved recipients are explicit
arguments (see the module comment). -/
def handleMessage (s : MQTTHandlerState) (topic : String) (jsonResult : Option JsValue)
    (payloadStr : String) (thresholds : Option (List ThresholdDef))
    (recipients : List String) (now : Int) : MQTTHandlerState × List Alert :=
  let value := parsePayload jsonResult payloadStr
  if isNullJs value then (s, [])
  else
    let s1 := updateLatestMessage s topic value now
    let s2 := queueMessage s1 topic value now
    checkThresholds s2 topic thresholds recipients now value

/-- `MQTTHandler.subscribeToTopic` (mqttHandler.js lines 425-432): a no-op when
already subscribed, otherwise mark the topic subscribed and initialize an
empty pending batch (the transport call has no effect on handler state). -/
def subscribeToTopic (s : MQTTHandlerState) (topic : String) : MQTTHandlerState :=
  if s.subscribedTopics topic then s
  else
    { s with
      subscribedTopics := fun t => if t = topic then true else s.subscribedTopics t,
      messageQueue := fun t => if t = topic then some [] else s.messageQueue t }

/-- `MQTTHandler.unsubscribeFromTopic` (mqttHandler.js lines 434-443): a no-op
when not subscribed, otherwise remove the topic from the subscription set and
delete its pending batch, live-cache entry and threshold states. -/
def unsubscribeFromTopic (s : MQTTHandlerState) (topic : String) : MQTTHandlerState :=
  if s.subscribedTopics topic then
    { s with
      subscribedTopics := fun t => if t = topic then false else s.subscribedTopics t,
      messageQueue := fun t => if t = topic then none else s.messageQueue t,
      latestMessages := fun t => if t = topic then none else s.latestMessages t,
      thresholdStates := fun t => if t = topic then none else s.thresholdStates t }
  else s

/-- Overwrite one key of a TTL cache (`NodeCache.set`). -/
def cacheSet {α : Type} (cache : String → Option α) (topic : String) (v : α) :
    String → Option α :=
  fun t => if t = topic then some v else cache t

/-- `[...new Set(list)]`: de-duplication keeping first occurrences in order. -/
def jsSetDedup : List String → List String
  | [] => []
  | x :: xs => x :: jsSetDedup (xs.filter (fun y => y ≠ x))
termination_by l => l.length
decreasing_by
  simp only [List.length_cons]
  exact Nat.lt_succ_of_le (List.length_filter_le _ xs)

/-- `MQTTHandler.getRecipients` (mqttHandler.js lines 294-320): return the
cached recipient list when present; otherwise resolve the two collaborator
queries (`fetch` is their combined outcome, `Except.error` modelling a thrown
lookup error), de-duplicate the union, and cache the result only when it is
non-empty.  Returns the recipients and the updated cache. -/
def getRecipients (cache : String → Option (List String)) (topic : String)
    (fetch : Except Unit (List String × List String)) :
    List String × (String → Option (List String)) :=
  match cache topic with
  | some cached => (cached, cache)
  | none =>
    match fetch with
    | Except.error _ => ([], cache)
    | Except.ok (employees, supervisors) =>
      let recipients := jsSetDedup (employees ++ supervisors)
      if 0 < recipients.length then (recipients, cacheSet cache topic recipients)
      else (recipients, cache)

/-- The projection of a topic configuration document selected by
`AllTopicsModel.findOne({ topic }).select("thresholds")`. -/
structure TopicData where
  thresholds : List ThresholdDef
deriving DecidableEq

/-- `MQTTHandler.getThresholds` (mqttHandler.js lines 384-401): return the
cached document's threshold list when present; otherwise consult the store
(`fetch`: `Except.error` a thrown lookup error, `Except.ok none` no document),
caching the document whenever one exists.  Returns `none` where the source
returns `null`, plus the updated cache. -/
def getThresholds (cache : String → Option TopicData) (topic : String)
    (fetch : Except Unit (Option TopicData)) :
    Option (List ThresholdDef) × (String → Option TopicData) :=
  match cache topic with
  | some cached => (some cached.thresholds, cache)
  | none =>
    match fetch with
    | Except.error _ => (none, cache)
    | Except.ok none => (none, cache)
    | Except.ok (some topicData) =>
      (some topicData.thresholds, cacheSet cache topic topicData)

/-- One email job as stored on `EmailQueue.queue`: the alert payload plus the
retry bookkeeping fields `retries` and `timestamp` (mqttHandler.js lines 25-32). -/
structure Job where
  recipients : List String
  retries : Nat
  timestamp : Int
deriving DecidableEq

/-- The `while (this.queue.length > 0)` drain loop of `EmailQueue.processQueue`
(mqttHandler.js lines 46-74) at time `now`, with `sendOk` the delivery outcome
of each attempted job.  Returns `(remaining head segment, failed jobs re-pushed
in attempt order, attempted jobs in order)`: jobs at `MAX_MAIL_RETRIES` are
dropped; a head that already failed and is still inside `MAIL_RETRY_DELAY`
stops the loop; every other head is dequeued and attempted, a failure being
re-enqueued at the tail with `retries + 1` and a fresh timestamp. -/
def drainGo (now : Int) (sendOk : Job → Bool) : List Job → List Job × List Job × List Job
  | [] => ([], [], [])
  | j :: rest =>
    if MAX_MAIL_RETRIES ≤ j.retries then drainGo now sendOk rest
    else if 0 < j.retries ∧ now < j.timestamp + MAIL_RETRY_DELAY then (j :: rest, [], [])
    else
      let r := drainGo now sendOk rest
      if sendOk j then (r.1, r.2.1, j :: r.2.2)
      else (r.1, ⟨j.recipients, j.retries + 1, now⟩ :: r.2.1, j :: r.2.2)

/-- One full drain cycle of `EmailQueue.processQueue`: the new queue is the
unprocessed head segment followed by the re-enqueued failures, and the second
component lists the jobs whose delivery was attempted this cycle. -/
def processQueue (now : Int) (sendOk : Job → Bool) (queue : List Job) :
    List Job × List Job :=
  let r := drainGo now sendOk queue
  (r.1 ++ r.2.1, r.2.2)

/-- Run one drain cycle per entry of `schedule` (the recurring 100 ms timer of
`EmailQueue`), returning the final queue and the total number of delivery
attempts. -/
def runCycles (sendOk : Job → Bool) : List Int → List Job → List Job × Nat
  | [], queue => (queue, 0)
  | now :: rest, queue =>
    let r := processQueue now sendOk queue
    let r2 := runCycles sendOk rest r.1
    (r2.1, r.2.length + r2.2)

/-- Little-endian decimal digit characters of a natural number (empty for 0). -/
def natToRevDigits : Nat → List Char
  | 0 => []
  | n + 1 => Nat.digitChar ((n + 1) % 10) :: natToRevDigits ((n + 1) / 10)
decreasing_by exact Nat.div_lt_self (Nat.succ_pos n) (by norm_num)

/-- Canonical decimal digit characters of a natural number. -/
def natToChars (n : Nat) : List Char :=
  if n = 0 then ['0'] else (natToRevDigits n).reverse

/-- The fraction block of a decimal rendering: empty, or a dot followed by
the digit characters. -/
def fracChars (fds : List (Fin 10)) : List Char :=
  if fds.isEmpty then [] else '.' :: fds.map fun k => Nat.digitChar k.val

/-- A decimal literal: sign, integer part and fraction digits; every float64
that JavaScript prints in positional notation has this form, so quantifying
over `DecimalLit` covers every bare numeric payload string. -/
structure DecimalLit where
  neg : Bool
  intPart : Nat
  fracDigits : List (Fin 10)

/-- Numeric value of the fraction digit block read as an integer. -/
def fracNat (fds : List (Fin 10)) : Nat :=
  List.foldl (fun a d => 10 * a + d.val) 0 fds

/-- The rational a decimal literal denotes. -/
def decToRat (d : DecimalLit) : ℚ :=
  (if d.neg then (-1 : ℚ) else 1) *
    ((d.intPart : ℚ) + (fracNat d.fracDigits : ℚ) / (10 : ℚ) ^ d.fracDigits.length)

/-- The canonical character rendering of a decimal literal. -/
def decToChars (d : DecimalLit) : List Char :=
  (if d.neg then ['-'] else []) ++ natToChars d.intPart ++ fracChars d.fracDigits

/-- The canonical string rendering of a decimal literal. -/
def decToString (d : DecimalLit) : String := ⟨decToChars d⟩

/-- The freshly constructed handler: nothing subscribed, no queues, no caches. -/
def handlerInit : MQTTHandlerState :=
  ⟨fun _ => false, fun _ => none, fun _ => none, fun _ => none⟩

/-- A sample handler state with topic "a" subscribed, used in closed instances. -/
def sampleState : MQTTHandlerState :=
  { subscribedTopics := fun t => t == "a",
    messageQueue := fun t => if t = "a" then some [] else none,
    latestMessages := fun t => if t = "a" then some ⟨JsValue.num 1, 0⟩ else none,
    thresholdStates := fun t => if t = "a" then some [] else none }

/-! Helper lemmas. -/

theorem jsGE_mono {v : JsValue} {a b : ℚ} (hab : b ≤ a) (h : jsGE v a = true) :
    jsGE v b = true := by
  cases hv : toNumberJs v with
  | none => simp [jsGE, hv] at h
  | some q =>
    simp [jsGE, hv] at h ⊢
    exact le_trans hab h

theorem checkStep_flag_true (recipients : List String) (currentTime : Int)
    (liveValue : JsValue) (ts0 : TSMap) (l : List ThresholdDef)
    (h : ∀ t ∈ l, jsGE liveValue t.value = true) :
    checkStep recipients currentTime liveValue ts0 true l = (ts0, []) := by
  induction l with
  | nil => rfl
  | cons t rest ih =>
    have ht := h t (List.mem_cons_self t rest)
    simp only [checkStep, ht, if_true, ite_self]
    exact ih (fun u hu => h u (List.mem_cons_of_mem t hu))

theorem checkStep_max_fires_stops (recipients : List String) (currentTime : Int)
    (liveValue : JsValue) (t : ThresholdDef) (rest : List ThresholdDef) (ts0 : TSMap)
    (hsorted : ∀ u ∈ rest, u.value ≤ t.value)
    (hge : jsGE liveValue t.value = true)
    (hfire : ¬ ((tsLookup ts0 (t.color, t.value)).getD ⟨false, 0⟩).triggered = true
        ∨ THRESHOLD_COOLDOWN_PERIOD ≤
            currentTime - ((tsLookup ts0 (t.color, t.value)).getD ⟨false, 0⟩).lastAlertTime)
    (hrec : 0 < recipients.length) :
    checkStep recipients currentTime liveValue ts0 false (t :: rest)
      = (tsInsert ts0 (t.color, t.value) ⟨true, currentTime⟩,
         [⟨recipients, t.color, t.value, liveValue⟩]) := by
  simp only [checkStep, hge, if_true, if_pos hfire, Bool.false_eq_true, if_false, if_pos hrec]
  by_cases hred : t.color = "red"
  · rw [if_pos hred]
  · rw [if_neg hred,
      checkStep_flag_true recipients currentTime liveValue _ rest
        (fun u hu => jsGE_mono (hsorted u hu) hge)]

theorem enqueueList_foldl (ms : List QMsg) :
    List.foldl enqueueList [] ms = ms.drop (ms.length - MAX_QUEUE_SIZE) := by
  induction ms using List.reverseRecOn with
  | nil => simp
  | append_singleton l a ih =>
    rw [List.foldl_append, List.foldl_cons, List.foldl_nil, ih]
    simp only [enqueueList, MAX_QUEUE_SIZE] at *
    by_cases hlen : l.length < 100
    · have h0 : l.length - 100 = 0 := by omega
      have h1 : (l ++ [a]).length - 100 = 0 := by
        simp only [List.length_append, List.length_singleton]; omega
      rw [h0, List.drop_zero, h1, List.drop_zero]
      have h2 : ¬ 100 < (l ++ [a]).length := by
        simp only [List.length_append, List.length_singleton]; omega
      rw [if_neg h2]
    · push_neg at hlen
      have hq : (l.drop (l.length - 100)).length = 100 := by
        rw [List.length_drop]; omega
      have h2 : 100 < (l.drop (l.length - 100) ++ [a]).length := by
        rw [List.length_append, hq, List.length_singleton]; omega
      rw [if_pos h2]
      have h3 : (l.drop (l.length - 100) ++ [a]).length - 100 = 1 := by
        rw [List.length_append, hq, List.length_singleton]
      rw [h3]
      have h4 : (1 : Nat) ≤ (l.drop (l.length - 100)).length := by omega
      rw [List.drop_append_of_le_length h4, List.drop_drop]
      have h5 : (l ++ [a]).length - 100 = l.length - 100 + 1 := by
        simp only [List.length_append, List.length_singleton]; omega
      rw [h5]
      have h6 : l.length - 100 + 1 ≤ l.length := by omega
      rw [List.drop_append_of_le_length h6]

theorem queueMessage_foldl (s0 : MQTTHandlerState) (topic : String)
    (xs : List (JsValue × Int)) :
    ((xs.foldl (fun s x => queueMessage s topic x.1 x.2) s0).messageQueue topic).getD []
      = List.foldl enqueueList ((s0.messageQueue topic).getD [])
          (xs.map fun x => ⟨x.1, x.2⟩) := by
  induction xs generalizing s0 with
  | nil => rfl
  | cons x xs ih =>
    rw [List.foldl_cons, List.map_cons, List.foldl_cons, ih]
    congr 1
    simp [queueMessage]

theorem runCycles_nil (sendOk : Job → Bool) (schedule : List Int) :
    runCycles sendOk schedule [] = ([], 0) := by
  induction schedule with
  | nil => rfl
  | cons now rest ih => simp [runCycles, processQueue, drainGo, ih]

theorem runCycles_singleton_le (sendOk : Job → Bool) (schedule : List Int)
    (rc : List String) (r : Nat) (ts : Int) (hr : r ≤ MAX_MAIL_RETRIES) :
    (runCycles sendOk schedule [⟨rc, r, ts⟩]).2 + r ≤ MAX_MAIL_RETRIES := by
  induction schedule generalizing r ts with
  | nil => simpa [runCycles] using hr
  | cons now rest ih =>
    simp only [runCycles, processQueue, drainGo]
    by_cases hdrop : MAX_MAIL_RETRIES ≤ r
    · rw [if_pos hdrop]
      simp [runCycles_nil]
      omega
    · rw [if_neg hdrop]
      by_cases hdelay : 0 < r ∧ now < ts + MAIL_RETRY_DELAY
      · rw [if_pos hdelay]
        simpa using ih r ts hr
      · rw [if_neg hdelay]
        by_cases hok : sendOk ⟨rc, r, ts⟩
        · rw [if_pos hok]
          simp [runCycles_nil]
          omega
        · rw [if_neg hok]
          have := ih (r + 1) now (by omega)
          simp only [List.nil_append, List.singleton_append, List.length_cons,
            List.length_nil] at *
          omega

theorem digitsVal_append (ds : List Char) (c : Char) :
    digitsVal (ds ++ [c]) = 10 * digitsVal ds + charDigitVal c := by
  simp [digitsVal, List.foldl_append]

theorem digitChar_isDigit {k : Nat} (hk : k < 10) : (Nat.digitChar k).isDigit = true := by
  interval_cases k <;> decide

theorem charDigitVal_digitChar {k : Nat} (hk : k < 10) :
    charDigitVal (Nat.digitChar k) = k := by
  interval_cases k <;> decide

theorem natToRevDigits_digits (n : Nat) : ∀ c ∈ natToRevDigits n, c.isDigit = true := by
  induction n using Nat.strong_induction_on with
  | _ n ih =>
    match n with
    | 0 => intro c hc; simp [natToRevDigits] at hc
    | m + 1 =>
      intro c hc
      rw [natToRevDigits] at hc
      rcases List.mem_cons.mp hc with h | h
      · subst h; exact digitChar_isDigit (Nat.mod_lt _ (by norm_num))
      · exact ih ((m + 1) / 10) (Nat.div_lt_self (Nat.succ_pos m) (by norm_num)) c h

theorem digitsVal_natToRevDigits (n : Nat) :
    digitsVal (natToRevDigits n).reverse = n := by
  induction n using Nat.strong_induction_on with
  | _ n ih =>
    match n with
    | 0 => simp [natToRevDigits, digitsVal]
    | m + 1 =>
      rw [natToRevDigits, List.reverse_cons, digitsVal_append,
        ih ((m + 1) / 10) (Nat.div_lt_self (Nat.succ_pos m) (by norm_num)),
        charDigitVal_digitChar (Nat.mod_lt _ (by norm_num))]
      omega

theorem natToChars_digits (n : Nat) : ∀ c ∈ natToChars n, c.isDigit = true := by
  unfold natToChars
  by_cases h : n = 0
  · rw [if_pos h]; intro c hc; simp at hc; subst hc; decide
  · rw [if_neg h]; intro c hc; exact natToRevDigits_digits n c (List.mem_reverse.mp hc)

theorem digitsVal_natToChars (n : Nat) : digitsVal (natToChars n) = n := by
  unfold natToChars
  by_cases h : n = 0
  · rw [if_pos h, h]; rfl
  · rw [if_neg h]; exact digitsVal_natToRevDigits n

theorem natToChars_ne_nil (n : Nat) : natToChars n ≠ [] := by
  unfold natToChars
  by_cases h : n = 0
  · rw [if_pos h]; simp
  · rw [if_neg h]
    intro hc
    have := digitsVal_natToRevDigits n
    rw [hc] at this
    exact h (by simpa [digitsVal] using this.symm)

theorem span_digits (ds rest : List Char)
    (hds : ∀ c ∈ ds, c.isDigit = true)
    (hrest : ∀ c, rest.head? = some c → c.isDigit = false) :
    (ds ++ rest).takeWhile Char.isDigit = ds ∧
    (ds ++ rest).dropWhile Char.isDigit = rest := by
  induction ds with
  | nil =>
    simp only [List.nil_append]
    cases rest with
    | nil => simp
    | cons c cs =>
      have hc := hrest c rfl
      rw [List.takeWhile_cons, List.dropWhile_cons]
      simp [hc]
  | cons d ds ih =>
    have hd := hds d (List.mem_cons_self d ds)
    have hr := ih (fun c hc => hds c (List.mem_cons_of_mem d hc))
    rw [List.cons_append, List.takeWhile_cons, List.dropWhile_cons]
    simp only [hd, if_true]
    exact ⟨by rw [hr.1], by rw [hr.2]⟩

theorem foldl_digits_map (fds : List (Fin 10)) (a : Nat) :
    List.foldl (fun acc c => 10 * acc + charDigitVal c) a
        (fds.map fun k => Nat.digitChar k.val)
      = List.foldl (fun acc d => 10 * acc + d.val) a fds := by
  induction fds generalizing a with
  | nil => rfl
  | cons d rest ih =>
    rw [List.map_cons, List.foldl_cons, List.foldl_cons,
      charDigitVal_digitChar d.isLt]
    exact ih _

theorem digitsVal_map_digitChar (fds : List (Fin 10)) :
    digitsVal (fds.map fun k => Nat.digitChar k.val) = fracNat fds :=
  foldl_digits_map fds 0

theorem isDigit_ne_signs {c : Char} (h : c.isDigit = true) :
    c ≠ '-' ∧ c ≠ '+' ∧ c ≠ '.' := by
  refine ⟨fun hc => ?_, fun hc => ?_, fun hc => ?_⟩ <;> (subst hc; simp at h)

theorem readSign_digit (c : Char) (r : List Char) (h : c.isDigit = true) :
    readSign (c :: r) = (1, c :: r) := by
  obtain ⟨h1, h2, _⟩ := isDigit_ne_signs h
  simp [readSign, h1, h2]

theorem parseFloatChars_signBody (sgn : ℚ) (cs : List Char) (ip : Nat)
    (fds : List (Fin 10))
    (hsign : readSign cs = (sgn, natToChars ip ++ fracChars fds)) :
    parseFloatChars cs
      = some (sgn * ((ip : ℚ) + (fracNat fds : ℚ) / (10 : ℚ) ^ fds.length)) := by
  have hdigits := natToChars_digits ip
  have hspan := span_digits (natToChars ip) (fracChars fds)
      hdigits
      (by
        intro c0 hc0
        unfold fracChars at hc0
        by_cases hemp : fds.isEmpty
        · rw [if_pos hemp] at hc0; simp at hc0
        · rw [if_neg hemp] at hc0
          simp only [List.head?_cons, Option.some_inj] at hc0
          subst hc0; decide)
  unfold parseFloatChars
  rw [hsign]
  simp only [hspan.1, hspan.2]
  unfold fracChars
  by_cases hemp : fds.isEmpty
  · rw [if_pos hemp]
    have hfds : fds = [] := List.isEmpty_iff.mp hemp
    subst hfds
    rw [if_neg (by simp [natToChars_ne_nil ip])]
    rw [digitsVal_natToChars]
    simp [fracNat, digitsVal]
  · rw [if_neg hemp]
    have hspan2 := span_digits (fds.map fun k => Nat.digitChar k.val) []
        (by intro c0 hc0
            obtain ⟨k, _, hk⟩ := List.mem_map.mp hc0
            subst hk; exact digitChar_isDigit k.isLt)
        (by intro c0 hc0; simp at hc0)
    rw [List.append_nil] at hspan2
    simp only [hspan2.1]
    rw [if_neg (by simp [natToChars_ne_nil ip])]
    rw [digitsVal_natToChars, digitsVal_map_digitChar, List.length_map]

theorem parseFloat_decToString (d : DecimalLit) :
    parseFloatStr (decToString d) = some (decToRat d) := by
  unfold parseFloatStr decToString decToRat
  have hdata : (String.mk (decToChars d)).data = decToChars d := rfl
  rw [hdata]
  unfold decToChars
  by_cases hneg : d.neg
  · rw [if_pos hneg, if_pos hneg]
    rw [List.singleton_append]
    exact parseFloatChars_signBody (-1) _ d.intPart d.fracDigits (by simp [readSign])
  · rw [if_neg hneg, if_neg hneg]
    rw [List.nil_append]
    obtain ⟨c, cs, hcons⟩ : ∃ c cs, natToChars d.intPart = c :: cs := by
      cases h : natToChars d.intPart with
      | nil => exact absurd h (natToChars_ne_nil d.intPart)
      | cons c cs => exact ⟨c, cs, rfl⟩
    refine parseFloatChars_signBody 1 _ d.intPart d.fracDigits ?_
    rw [hcons, List.cons_append,
      readSign_digit c _ (natToChars_digits d.intPart c
        (by rw [hcons]; exact List.mem_cons_self c cs)),
      ← List.cons_append, ← hcons]

theorem checkThresholds_frame (s : MQTTHandlerState) (topic : String)
    (thresholds : Option (List ThresholdDef)) (recipients : List String)
    (currentTime : Int) (liveValue : JsValue) :
    (checkThresholds s topic thresholds recipients currentTime liveValue).1.latestMessages
        = s.latestMessages ∧
    (checkThresholds s topic thresholds recipients currentTime liveValue).1.messageQueue
        = s.messageQueue ∧
    (checkThresholds s topic thresholds recipients currentTime liveValue).1.subscribedTopics
        = s.subscribedTopics := by
  unfold checkThresholds
  cases thresholds with
  | none => exact ⟨rfl, rfl, rfl⟩
  | some l => by_cases h : l.length = 0 <;> simp [h]

/-! Claim theorems. -/

/-- C1: with a single threshold (trigger 80, reset 70) and the per-severity
state initially not triggered, the reading sequence 60, 85, 75, 65 yields the
state sequence not-triggered, triggered, triggered (unchanged), not-triggered
and emits exactly one alert, at the reading 85, for any non-empty recipient
set and any reading times inside one cooldown window. -/
theorem hysteresis_C1 (r : String) (rs : List String) (t0 t1 t2 t3 : Int)
    (hmono : t0 ≤ t1 ∧ t1 ≤ t2 ∧ t2 ≤ t3)
    (hwin : t3 - t1 < THRESHOLD_COOLDOWN_PERIOD) :
    (runReadings (some [⟨"orange", 80, 70⟩]) (r :: rs)
        [(t0, JsValue.num 60), (t1, JsValue.num 85), (t2, JsValue.num 75),
          (t3, JsValue.num 65)] []).2
      = [⟨r :: rs, "orange", 80, JsValue.num 85⟩] ∧
    checkTopicState (some [⟨"orange", 80, 70⟩]) (r :: rs) t0 (JsValue.num 60) []
      = ([(("orange", 80), ⟨false, 0⟩)], []) ∧
    checkTopicState (some [⟨"orange", 80, 70⟩]) (r :: rs) t1 (JsValue.num 85)
        [(("orange", 80), ⟨false, 0⟩)]
      = ([(("orange", 80), ⟨true, t1⟩)], [⟨r :: rs, "orange", 80, JsValue.num 85⟩]) ∧
    checkTopicState (some [⟨"orange", 80, 70⟩]) (r :: rs) t2 (JsValue.num 75)
        [(("orange", 80), ⟨true, t1⟩)]
      = ([(("orange", 80), ⟨true, t1⟩)], []) ∧
    checkTopicState (some [⟨"orange", 80, 70⟩]) (r :: rs) t3 (JsValue.num 65)
        [(("orange", 80), ⟨true, t1⟩)]
      = ([(("orange", 80), ⟨false, 0⟩)], []) := by
  norm_num [runReadings, checkTopicState, checkStep, sortThresholds, List.insertionSort,
    List.orderedInsert, jsGE, jsLT, toNumberJs, tsLookup, tsInsert,
    THRESHOLD_COOLDOWN_PERIOD]

/-- Closed instance of hysteresis_C1. -/
theorem hysteresis_C1_witness :
    (((0 : Int) ≤ 10 ∧ (10 : Int) ≤ 20 ∧ (20 : Int) ≤ 30) ∧
      (30 : Int) - 10 < THRESHOLD_COOLDOWN_PERIOD) ∧
    (runReadings (some [⟨"orange", 80, 70⟩]) ["a"]
        [(0, JsValue.num 60), (10, JsValue.num 85), (20, JsValue.num 75),
          (30, JsValue.num 65)] []).2
      = [⟨["a"], "orange", 80, JsValue.num 85⟩] :=
  ⟨⟨by norm_num, by norm_num [THRESHOLD_COOLDOWN_PERIOD]⟩,
    (hysteresis_C1 "a" [] 0 10 20 30 (by norm_num)
      (by norm_num [THRESHOLD_COOLDOWN_PERIOD])).1⟩

/-- C2: with trigger 80 / reset 70 and the 30 s cooldown, two readings of 90
one second apart emit exactly one alert (the second is suppressed because the
state is triggered and less than the cooldown has elapsed since lastAlertTime,
leaving the state unchanged), and a third reading of 90 at least 30 s after
the first alert emits a second alert, for any non-empty recipient set. -/
theorem cooldown_C2 (r : String) (rs : List String) (t0 t2 : Int)
    (hcd : THRESHOLD_COOLDOWN_PERIOD ≤ t2 - t0) :
    (runReadings (some [⟨"orange", 80, 70⟩]) (r :: rs)
        [(t0, JsValue.num 90), (t0 + 1000, JsValue.num 90), (t2, JsValue.num 90)] []).2
      = [⟨r :: rs, "orange", 80, JsValue.num 90⟩,
         ⟨r :: rs, "orange", 80, JsValue.num 90⟩] ∧
    checkTopicState (some [⟨"orange", 80, 70⟩]) (r :: rs) t0 (JsValue.num 90) []
      = ([(("orange", 80), ⟨true, t0⟩)], [⟨r :: rs, "orange", 80, JsValue.num 90⟩]) ∧
    checkTopicState (some [⟨"orange", 80, 70⟩]) (r :: rs) (t0 + 1000) (JsValue.num 90)
        [(("orange", 80), ⟨true, t0⟩)]
      = ([(("orange", 80), ⟨true, t0⟩)], []) ∧
    (checkTopicState (some [⟨"orange", 80, 70⟩]) (r :: rs) t2 (JsValue.num 90)
        [(("orange", 80), ⟨true, t0⟩)]).2
      = [⟨r :: rs, "orange", 80, JsValue.num 90⟩] := by
  simp only [THRESHOLD_COOLDOWN_PERIOD] at hcd
  norm_num [runReadings, checkTopicState, checkStep, sortThresholds, List.insertionSort,
    List.orderedInsert, jsGE, jsLT, toNumberJs, tsLookup, tsInsert,
    THRESHOLD_COOLDOWN_PERIOD] <;>
    rw [if_pos (by omega)]

/-- Closed instance of cooldown_C2. -/
theorem cooldown_C2_witness :
    (THRESHOLD_COOLDOWN_PERIOD ≤ (30000 : Int) - 0) ∧
    (runReadings (some [⟨"orange", 80, 70⟩]) ["a"]
        [(0, JsValue.num 90), (0 + 1000, JsValue.num 90), (30000, JsValue.num 90)] []).2
      = [⟨["a"], "orange", 80, JsValue.num 90⟩, ⟨["a"], "orange", 80, JsValue.num 90⟩] :=
  ⟨by norm_num [THRESHOLD_COOLDOWN_PERIOD],
    (cooldown_C2 "a" [] 0 30000 (by norm_num [THRESHOLD_COOLDOWN_PERIOD])).1⟩

/-- C3: severities are evaluated in descending order of trigger value (the
loop runs over a descending-sorted permutation of the configured list); a
single reading of 90 against orange(trigger 50)/red(trigger 80) emits exactly
the red alert and leaves the orange state untouched; and whenever the maximal
(first-sorted) severity fires and emits its alert, no lower severity changes
state or emits an alert in that evaluation pass. -/
theorem severity_suppression_C3 :
    (∀ ts : List ThresholdDef,
      (sortThresholds ts).Sorted thDesc ∧ List.Perm (sortThresholds ts) ts) ∧
    (∀ (now : Int) (r : String) (rs : List String),
      checkTopicState (some [⟨"orange", 50, 40⟩, ⟨"red", 80, 70⟩]) (r :: rs) now
          (JsValue.num 90) []
        = ([(("red", 80), ⟨true, now⟩)], [⟨r :: rs, "red", 80, JsValue.num 90⟩])) ∧
    (∀ (recipients : List String) (currentTime : Int) (liveValue : JsValue)
        (t : ThresholdDef) (rest : List ThresholdDef) (ts0 : TSMap),
      (∀ u ∈ rest, u.value ≤ t.value) →
      jsGE liveValue t.value = true →
      (¬ ((tsLookup ts0 (t.color, t.value)).getD ⟨false, 0⟩).triggered = true
          ∨ THRESHOLD_COOLDOWN_PERIOD ≤ currentTime -
              ((tsLookup ts0 (t.color, t.value)).getD ⟨false, 0⟩).lastAlertTime) →
      0 < recipients.length →
      checkStep recipients currentTime liveValue ts0 false (t :: rest)
        = (tsInsert ts0 (t.color, t.value) ⟨true, currentTime⟩,
            [⟨recipients, t.color, t.value, liveValue⟩])) := by
  refine ⟨fun ts => ⟨List.sorted_insertionSort thDesc ts, List.perm_insertionSort thDesc ts⟩,
    fun now r rs => ?_,
    fun recipients currentTime liveValue t rest ts0 h1 h2 h3 h4 =>
      checkStep_max_fires_stops recipients currentTime liveValue t rest ts0 h1 h2 h3 h4⟩
  norm_num [checkTopicState, checkStep, sortThresholds, List.insertionSort,
    List.orderedInsert, jsGE, jsLT, toNumberJs, tsLookup, tsInsert, thDesc,
    THRESHOLD_COOLDOWN_PERIOD]

/-- Closed instance of severity_suppression_C3. -/
theorem severity_suppression_C3_witness :
    ((∀ u ∈ ([] : List ThresholdDef), u.value ≤ (80 : ℚ)) ∧
      jsGE (JsValue.num 90) 80 = true ∧
      (¬ ((tsLookup ([] : TSMap) ("red", 80)).getD ⟨false, 0⟩).triggered = true
          ∨ THRESHOLD_COOLDOWN_PERIOD ≤ (5 : Int) -
              ((tsLookup ([] : TSMap) ("red", 80)).getD ⟨false, 0⟩).lastAlertTime) ∧
      0 < (["a"] : List String).length) ∧
    checkStep ["a"] 5 (JsValue.num 90) [] false [⟨"red", 80, 70⟩]
      = (tsInsert [] ("red", 80) ⟨true, 5⟩, [⟨["a"], "red", 80, JsValue.num 90⟩]) :=
  ⟨⟨by simp, by decide, Or.inl (by decide), by decide⟩,
    severity_suppression_C3.2.2 ["a"] 5 (JsValue.num 90) ⟨"red", 80, 70⟩ [] []
      (by simp) (by decide) (Or.inl (by decide)) (by decide)⟩

/-- C10: a crossed and due threshold whose resolved recipient set is empty
still transitions to triggered with lastAlertTime set to now while no
notification job is enqueued; the suppression flag stays unset, so a lower
configured severity also transitions silently in the same pass; afterwards a
reading at or above the trigger inside the cooldown window is suppressed for
any recipient set, until either the cooldown elapses (a recipient-backed
reading alerts again) or the value drops below the reset value (the state
returns to not-triggered). -/
theorem silent_alert_loss_C10 :
    (∀ (c : String) (v rv : ℚ) (now : Int) (lv : ℚ) (ts0 : TSMap),
      tsLookup ts0 (c, v) = none → v ≤ lv →
      checkTopicState (some [⟨c, v, rv⟩]) [] now (JsValue.num lv) ts0
        = (tsInsert ts0 (c, v) ⟨true, now⟩, [])) ∧
    (∀ now : Int,
      checkTopicState (some [⟨"orange", 50, 40⟩, ⟨"red", 80, 70⟩]) [] now
          (JsValue.num 90) []
        = ([(("red", 80), ⟨true, now⟩), (("orange", 50), ⟨true, now⟩)], [])) ∧
    (∀ (c : String) (v rv : ℚ) (t1 t2 : Int) (lv2 : ℚ) (recipients : List String),
      v ≤ lv2 → t2 - t1 < THRESHOLD_COOLDOWN_PERIOD →
      checkTopicState (some [⟨c, v, rv⟩]) recipients t2 (JsValue.num lv2)
          [((c, v), ⟨true, t1⟩)]
        = ([((c, v), ⟨true, t1⟩)], [])) ∧
    (∀ (c : String) (v rv : ℚ) (t1 t2 : Int) (lv2 : ℚ) (r : String) (rs : List String),
      v ≤ lv2 → THRESHOLD_COOLDOWN_PERIOD ≤ t2 - t1 →
      (checkTopicState (some [⟨c, v, rv⟩]) (r :: rs) t2 (JsValue.num lv2)
          [((c, v), ⟨true, t1⟩)]).2
        = [⟨r :: rs, c, v, JsValue.num lv2⟩]) ∧
    (∀ (c : String) (v rv : ℚ) (t1 t2 : Int) (w : ℚ) (recipients : List String),
      w < rv → rv ≤ v →
      checkTopicState (some [⟨c, v, rv⟩]) recipients t2 (JsValue.num w)
          [((c, v), ⟨true, t1⟩)]
        = ([((c, v), ⟨false, 0⟩)], [])) := by
  refine ⟨fun c v rv now lv ts0 hl hge => ?_, fun now => ?_,
    fun c v rv t1 t2 lv2 recipients hge hcd => ?_,
    fun c v rv t1 t2 lv2 r rs hge hcd => ?_,
    fun c v rv t1 t2 w recipients hrv hvr => ?_⟩
  · norm_num [checkTopicState, checkStep, sortThresholds, List.insertionSort,
      List.orderedInsert, jsGE, jsLT, toNumberJs, hl, hge, THRESHOLD_COOLDOWN_PERIOD]
  · norm_num [checkTopicState, checkStep, sortThresholds, List.insertionSort,
      List.orderedInsert, jsGE, jsLT, toNumberJs, tsLookup, tsInsert, thDesc,
      THRESHOLD_COOLDOWN_PERIOD]
  · simp only [THRESHOLD_COOLDOWN_PERIOD] at hcd
    norm_num [checkTopicState, checkStep, sortThresholds, List.insertionSort,
      List.orderedInsert, jsGE, jsLT, toNumberJs, tsLookup, tsInsert, hge,
      THRESHOLD_COOLDOWN_PERIOD]
    intro h
    exact absurd h (by omega)
  · simp only [THRESHOLD_COOLDOWN_PERIOD] at hcd
    norm_num [checkTopicState, checkStep, sortThresholds, List.insertionSort,
      List.orderedInsert, jsGE, jsLT, toNumberJs, tsLookup, tsInsert, hge,
      THRESHOLD_COOLDOWN_PERIOD]
    rw [if_pos (by omega)]
  · have hnv : ¬ (v ≤ w) := not_le.mpr (lt_of_lt_of_le hrv hvr)
    norm_num [checkTopicState, checkStep, sortThresholds, List.insertionSort,
      List.orderedInsert, jsGE, jsLT, toNumberJs, tsLookup, tsInsert, hnv, hrv,
      THRESHOLD_COOLDOWN_PERIOD]

/-- Closed instance of silent_alert_loss_C10. -/
theorem silent_alert_loss_C10_witness :
    (tsLookup ([] : TSMap) ("red", 80) = none ∧ (80 : ℚ) ≤ 90 ∧
      (80 : ℚ) ≤ 90 ∧ (7 : Int) - 5 < THRESHOLD_COOLDOWN_PERIOD) ∧
    checkTopicState (some [⟨"red", 80, 70⟩]) [] 5 (JsValue.num 90) []
      = (tsInsert [] ("red", 80) ⟨true, 5⟩, []) ∧
    checkTopicState (some [⟨"red", 80, 70⟩]) ["a"] 7 (JsValue.num 90)
        [(("red", 80), ⟨true, 5⟩)]
      = ([(("red", 80), ⟨true, 5⟩)], []) :=
  ⟨⟨rfl, by norm_num, by norm_num, by norm_num [THRESHOLD_COOLDOWN_PERIOD]⟩,
    silent_alert_loss_C10.1 "red" 80 70 5 90 [] rfl (by norm_num),
    silent_alert_loss_C10.2.2.1 "red" 80 70 5 7 90 ["a"] (by norm_num)
      (by norm_num [THRESHOLD_COOLDOWN_PERIOD])⟩

/-- C4: after any sequence of enqueue operations on a topic whose batch starts
absent (or empty), the topic's pending batch holds at most MAX_QUEUE_SIZE
readings, and the retained entries are exactly the most recently enqueued
readings in enqueue order (the oldest excess entries are the ones discarded). -/
theorem queue_bound_C4 (s0 : MQTTHandlerState) (topic : String)
    (xs : List (JsValue × Int))
    (h : s0.messageQueue topic = none ∨ s0.messageQueue topic = some []) :
    ((xs.foldl (fun s x => queueMessage s topic x.1 x.2) s0).messageQueue topic).getD []
        = (xs.map fun x => (⟨x.1, x.2⟩ : QMsg)).drop (xs.length - MAX_QUEUE_SIZE) ∧
    (((xs.foldl (fun s x => queueMessage s topic x.1 x.2) s0).messageQueue
        topic).getD []).length ≤ MAX_QUEUE_SIZE := by
  have hbase : (s0.messageQueue topic).getD [] = [] := by
    rcases h with h | h <;> simp [h]
  have h1 := queueMessage_foldl s0 topic xs
  rw [hbase] at h1
  rw [h1, enqueueList_foldl]
  constructor
  · rw [List.length_map]
  · simp only [List.length_drop, List.length_map, MAX_QUEUE_SIZE]
    omega

/-- Closed instance of queue_bound_C4. -/
theorem queue_bound_C4_witness :
    (handlerInit.messageQueue "t" = none ∨ handlerInit.messageQueue "t" = some []) ∧
    (((([((JsValue.num 1 : JsValue), (0 : Int)), (JsValue.num 2, 1)]).foldl
        (fun s x => queueMessage s "t" x.1 x.2) handlerInit).messageQueue
        "t").getD []).length ≤ MAX_QUEUE_SIZE :=
  ⟨Or.inl rfl,
    (queue_bound_C4 handlerInit "t" [(JsValue.num 1, 0), (JsValue.num 2, 1)]
      (Or.inl rfl)).2⟩

/-- C6: a notification job entering the queue with zero retries is attempted
at most MAX_MAIL_RETRIES times over any schedule of drain cycles, whatever the
delivery outcomes; concretely, under always-failing delivery with cycles
spaced beyond the retry delay it is attempted exactly 3 times and then dropped
with the queue left empty — no job is retried indefinitely. -/
theorem mail_retry_bound_C6 :
    (∀ (sendOk : Job → Bool) (schedule : List Int) (rc : List String) (ts : Int),
      (runCycles sendOk schedule [⟨rc, 0, ts⟩]).2 ≤ MAX_MAIL_RETRIES) ∧
    runCycles (fun _ => false) [0, 2000, 4000, 6000] [⟨["a"], 0, 0⟩] = ([], 3) := by
  constructor
  · intro sendOk schedule rc ts
    have h := runCycles_singleton_le sendOk schedule rc 0 ts
      (by norm_num [MAX_MAIL_RETRIES])
    omega
  · rfl

/-- C7 (amended): in every drain cycle, when the head job has failed at least
once, still has retries remaining, and its retry delay has not yet elapsed,
draining stops for that cycle: the queue is unchanged and no job is attempted,
so no job behind the delayed head is attempted ahead of it. -/
theorem drain_head_delay_C7 (now : Int) (sendOk : Job → Bool) (j : Job)
    (rest : List Job) (h1 : 0 < j.retries) (h2 : j.retries < MAX_MAIL_RETRIES)
    (h3 : now < j.timestamp + MAIL_RETRY_DELAY) :
    processQueue now sendOk (j :: rest) = (j :: rest, []) := by
  have hd : drainGo now sendOk (j :: rest) = (j :: rest, [], []) := by
    simp only [drainGo]
    rw [if_neg (by omega : ¬ MAX_MAIL_RETRIES ≤ j.retries),
      if_pos (show 0 < j.retries ∧ now < j.timestamp + MAIL_RETRY_DELAY from ⟨h1, h3⟩)]
  unfold processQueue
  rw [hd]
  simp

/-- Closed instance of drain_head_delay_C7. -/
theorem drain_head_delay_C7_witness :
    ((0 : Nat) < 1 ∧ (1 : Nat) < MAX_MAIL_RETRIES ∧
      (500 : Int) < 0 + MAIL_RETRY_DELAY) ∧
    processQueue 500 (fun _ => false) [⟨["a"], 1, 0⟩] = ([⟨["a"], 1, 0⟩], []) :=
  ⟨⟨by norm_num, by norm_num [MAX_MAIL_RETRIES], by norm_num [MAIL_RETRY_DELAY]⟩,
    drain_head_delay_C7 500 (fun _ => false) ⟨["a"], 1, 0⟩ [] (by norm_num)
      (by norm_num [MAX_MAIL_RETRIES]) (by norm_num [MAIL_RETRY_DELAY])⟩

/-- C7 counterexample: a head job that has failed at least once (retries 3)
and whose retry delay has not yet elapsed (500 < 0 + MAIL_RETRY_DELAY) does
not stop the drain as the claim states: it is dropped for exhausting its
retries and the job behind it is attempted in the same cycle. -/
theorem drain_head_delay_C7_cex :
    0 < (⟨["a"], 3, 0⟩ : Job).retries ∧
    (500 : Int) < (⟨["a"], 3, 0⟩ : Job).timestamp + MAIL_RETRY_DELAY ∧
    processQueue 500 (fun _ => true) [⟨["a"], 3, 0⟩, ⟨["b"], 0, -5000⟩]
      = ([], [⟨["b"], 0, -5000⟩]) ∧
    processQueue 500 (fun _ => true) [⟨["a"], 3, 0⟩, ⟨["b"], 0, -5000⟩]
      ≠ ([⟨["a"], 3, 0⟩, ⟨["b"], 0, -5000⟩], []) := by
  refine ⟨by norm_num, by norm_num [MAIL_RETRY_DELAY], by decide, by decide⟩

/-- C8 (amended): getRecipients never stores an empty or failed lookup result
(the topic's cache entry stays absent, so a later call queries the store
again); getThresholds likewise caches nothing on a failed lookup or when no
document exists for the topic — but it does cache an existing document even
when that document's thresholds list is empty. -/
theorem config_cache_C8 (rcache : String → Option (List String))
    (tcache : String → Option TopicData) (topic : String)
    (employees supervisors : List String)
    (hr : rcache topic = none) (ht : tcache topic = none) :
    (getRecipients rcache topic (Except.error ())).1 = [] ∧
    (getRecipients rcache topic (Except.error ())).2 topic = none ∧
    (jsSetDedup (employees ++ supervisors) = [] →
      (getRecipients rcache topic (Except.ok (employees, supervisors))).2 topic
        = none) ∧
    (getThresholds tcache topic (Except.error ())).1 = none ∧
    (getThresholds tcache topic (Except.error ())).2 topic = none ∧
    (getThresholds tcache topic (Except.ok none)).1 = none ∧
    (getThresholds tcache topic (Except.ok none)).2 topic = none := by
  refine ⟨?_, ?_, fun hd => ?_, ?_, ?_, ?_, ?_⟩
  · simp [getRecipients, hr]
  · simp [getRecipients, hr]
  · simp [getRecipients, hr, hd]
  · simp [getThresholds, ht]
  · simp [getThresholds, ht]
  · simp [getThresholds, ht]
  · simp [getThresholds, ht]

/-- Closed instance of config_cache_C8. -/
theorem config_cache_C8_witness :
    ((fun _ => (none : Option (List String))) "t" = none ∧
      (fun _ => (none : Option TopicData)) "t" = none) ∧
    (getRecipients (fun _ => none) "t" (Except.error ())).1 = [] ∧
    (getThresholds (fun _ => none) "t" (Except.error ())).2 "t" = none :=
  ⟨⟨rfl, rfl⟩,
    (config_cache_C8 (fun _ => none) (fun _ => none) "t" [] [] rfl rfl).1,
    (config_cache_C8 (fun _ => none) (fun _ => none) "t" [] [] rfl rfl).2.2.2.2.1⟩

/-- C8 counterexample: with an empty cache, a getThresholds lookup for topic
"t" that finds an existing document whose thresholds list is empty — a lookup
returning no threshold definitions — stores that document in the cache, so the
entry for the topic does not remain absent and a later lookup inside the TTL
does not query the configuration store again. -/
theorem config_cache_C8_cex :
    (getThresholds (fun _ => none) "t" (Except.ok (some ⟨[]⟩))).1 = some [] ∧
    (getThresholds (fun _ => none) "t" (Except.ok (some ⟨[]⟩))).2 "t" = some ⟨[]⟩ ∧
    (getThresholds (fun _ => none) "t" (Except.ok (some ⟨[]⟩))).2 "t" ≠ none := by
  refine ⟨rfl, rfl, by decide⟩

/-- C9: unsubscribing a subscribed topic removes its pending batch, live-cache
entry and all of its threshold state while leaving every other topic's state
(and subscription) unchanged; unsubscribing an unsubscribed topic leaves the
handler state identical, as does subscribing an already-subscribed topic. -/
theorem subscription_frame_C9 (s : MQTTHandlerState) (topic : String) :
    (s.subscribedTopics topic = false → unsubscribeFromTopic s topic = s) ∧
    (s.subscribedTopics topic = true → subscribeToTopic s topic = s) ∧
    (s.subscribedTopics topic = true →
      (unsubscribeFromTopic s topic).subscribedTopics topic = false ∧
      (unsubscribeFromTopic s topic).messageQueue topic = none ∧
      (unsubscribeFromTopic s topic).latestMessages topic = none ∧
      (unsubscribeFromTopic s topic).thresholdStates topic = none ∧
      ∀ t, t ≠ topic →
        (unsubscribeFromTopic s topic).subscribedTopics t = s.subscribedTopics t ∧
        (unsubscribeFromTopic s topic).messageQueue t = s.messageQueue t ∧
        (unsubscribeFromTopic s topic).latestMessages t = s.latestMessages t ∧
        (unsubscribeFromTopic s topic).thresholdStates t = s.thresholdStates t) := by
  refine ⟨fun h => ?_, fun h => ?_, fun h => ?_⟩
  · simp [unsubscribeFromTopic, h]
  · simp [subscribeToTopic, h]
  · simp only [unsubscribeFromTopic, h, if_true]
    refine ⟨by simp, by simp, by simp, by simp, fun t ht => ?_⟩
    simp [ht]

/-- Closed instance of subscription_frame_C9. -/
theorem subscription_frame_C9_witness :
    (sampleState.subscribedTopics "b" = false ∧ sampleState.subscribedTopics "a" = true) ∧
    unsubscribeFromTopic sampleState "b" = sampleState ∧
    subscribeToTopic sampleState "a" = sampleState ∧
    (unsubscribeFromTopic sampleState "a").messageQueue "a" = none ∧
    (unsubscribeFromTopic sampleState "a").latestMessages "c" = sampleState.latestMessages "c" :=
  ⟨⟨rfl, rfl⟩,
    (subscription_frame_C9 sampleState "b").1 rfl,
    (subscription_frame_C9 sampleState "a").2.1 rfl,
    ((subscription_frame_C9 sampleState "a").2.2 rfl).2.1,
    (((subscription_frame_C9 sampleState "a").2.2 rfl).2.2.2.2 "c"
      (by decide)).2.2.1⟩

theorem isNullJs_eq_false {v : JsValue} (hv : v ≠ JsValue.null) : isNullJs v = false := by
  cases v with
  | null => exact absurd rfl hv
  | bool b => rfl
  | num q => rfl
  | str s => rfl
  | obj fields => rfl

/-- C5 (amended): every numeric payload encoding returns its value — nested
object message.message, flat object message (coerced), a JSON number, and, on
the JSON-failure path, any bare decimal-literal string.  The parser returns
null — and handleMessage then drops the reading, touching no state — exactly
on the paths without a message field: a JSON failure whose raw text is not
coercible, a decoded non-object whose coercion fails, or a decoded object
without a message field.  When the decoded value is an object with a message
field whose coercion fails, however, the original message value is returned
unchanged (not null), and every non-null parse result, numeric or not, reaches
the live cache and the pending batch. -/
theorem parse_coverage_C5 :
    (∀ (v : ℚ) (s : String),
      parsePayload
          (some (JsValue.obj [("message", JsValue.obj [("message", JsValue.num v)])])) s
        = JsValue.num v) ∧
    (∀ (v : ℚ) (s : String),
      parsePayload (some (JsValue.obj [("message", JsValue.num v)])) s = JsValue.num v) ∧
    (∀ (v : ℚ) (s : String), parsePayload (some (JsValue.num v)) s = JsValue.num v) ∧
    (∀ d : DecimalLit, parsePayload none (decToString d) = JsValue.num (decToRat d)) ∧
    (∀ s : String, parseFloatStr s = none → parsePayload none s = JsValue.null) ∧
    (∀ (j : JsValue) (s : String),
      (∀ fields, j ≠ JsValue.obj fields) → parseFloatJs j = none →
      parsePayload (some j) s = JsValue.null) ∧
    (∀ (fields : List (String × JsValue)) (s : String),
      jsGet (JsValue.obj fields) "message" = none →
      parsePayload (some (JsValue.obj fields)) s = JsValue.null) ∧
    (∀ (fields : List (String × JsValue)) (msg : JsValue) (s : String),
      jsGet (JsValue.obj fields) "message" = some msg →
      ¬ (jsTruthy msg = true ∧ (jsGet msg "message").isSome = true) →
      parseFloatJs msg = none →
      parsePayload (some (JsValue.obj fields)) s = msg) ∧
    (∀ (st : MQTTHandlerState) (topic : String) (jr : Option JsValue) (ps : String)
        (ths : Option (List ThresholdDef)) (recips : List String) (now : Int),
      parsePayload jr ps = JsValue.null →
      handleMessage st topic jr ps ths recips now = (st, [])) ∧
    (∀ (st : MQTTHandlerState) (topic : String) (jr : Option JsValue) (ps : String)
        (ths : Option (List ThresholdDef)) (recips : List String) (now : Int)
        (v : JsValue),
      parsePayload jr ps = v → v ≠ JsValue.null →
      (handleMessage st topic jr ps ths recips now).1.latestMessages topic
          = some ⟨v, now⟩ ∧
      (handleMessage st topic jr ps ths recips now).1.messageQueue topic
          = some (enqueueList ((st.messageQueue topic).getD []) ⟨v, now⟩)) := by
  refine ⟨fun v s => rfl, ?_, fun v s => rfl, ?_, ?_, ?_, ?_, ?_, ?_, ?_⟩
  · intro v s
    simp [parsePayload, jsGet, jsGet.lookupField, parseFloatJs]
  · intro d
    simp only [parsePayload, parseFloat_decToString d]
  · intro s h
    simp only [parsePayload, h]
  · intro j s hobj hpf
    cases j with
    | null => simp [parsePayload, parseFloatJs]
    | bool b => simp [parsePayload, parseFloatJs]
    | num q => exact absurd hpf (by simp [parseFloatJs])
    | str t => simp [parsePayload, hpf]
    | obj fields => exact absurd rfl (hobj fields)
  · intro fields s h
    simp [parsePayload, h, parseFloatJs]
  · intro fields msg s h1 h2 h3
    simp [parsePayload, h1, h2, h3]
  · intro st topic jr ps ths recips now hp
    simp only [handleMessage, hp]
    rfl
  · intro st topic jr ps ths recips now v hp hv
    simp only [handleMessage, hp, isNullJs_eq_false hv, Bool.false_eq_true, if_false]
    constructor
    · rw [(checkThresholds_frame _ topic ths recips now _).1]
      simp [queueMessage, updateLatestMessage]
    · rw [(checkThresholds_frame _ topic ths recips now _).2.1]
      simp [queueMessage, updateLatestMessage]

/-- Closed instance of parse_coverage_C5. -/
theorem parse_coverage_C5_witness :
    parseFloatStr "zz" = none ∧ parsePayload none "zz" = JsValue.null :=
  ⟨rfl, parse_coverage_C5.2.2.2.2.1 "zz" rfl⟩

/-- C5 counterexample: the payload decoding to the object with field message
set to the string "abc" — on which every numeric coercion fails, parseFloat of
"abc" being NaN — does not make the parser return null as the claim states:
the original string value is returned, and the reading then reaches both the
live cache and the pending batch. -/
theorem parse_coverage_C5_cex :
    parseFloatJs (JsValue.str "abc") = none ∧
    parsePayload (some (JsValue.obj [("message", JsValue.str "abc")])) ""
      = JsValue.str "abc" ∧
    parsePayload (some (JsValue.obj [("message", JsValue.str "abc")])) ""
      ≠ JsValue.null ∧
    (handleMessage handlerInit "t" (some (JsValue.obj [("message", JsValue.str "abc")]))
        "" none [] 0).1.latestMessages "t" = some ⟨JsValue.str "abc", 0⟩ ∧
    (handleMessage handlerInit "t" (some (JsValue.obj [("message", JsValue.str "abc")]))
        "" none [] 0).1.messageQueue "t" = some [⟨JsValue.str "abc", 0⟩] := by
  have h2 : parsePayload (some (JsValue.obj [("message", JsValue.str "abc")])) ""
      = JsValue.str "abc" := rfl
  refine ⟨rfl, h2, ?_, rfl, rfl⟩
  rw [h2]
  intro h
  exact JsValue.noConfusion h
